import Mathlib

/-
  Shallow embedding of the snaplog repository (src/snaplog_natural.py and
  src/app_simple.py).

  Python dictionaries are modelled as association lists (first binding wins,
  as in CPython's unique-key dicts); arbitrary Python values reachable by the
  code are modelled by small inductive types carrying exactly the observations
  the code makes of them (truthiness, str(), tuple shape).  Machine floats in
  the GPS arithmetic are modelled by exact rationals; Python's `:.2f`
  formatting is modelled by rounding the rational to hundredths.
-/

namespace SnapLog

/-- Association-list lookup, modelling Python `d[k]` / `k in d` on a dict
whose insertion order is the list order (keys unique in every dict the
program builds). -/
def alookup {α β : Type} [DecidableEq α] (k : α) : List (α × β) → Option β
  | [] => none
  | (k', v) :: rest => if k' = k then some v else alookup k rest

/-- Python dict assignment `d[k] = v`: overwrites in place when the key
exists (keeping its position, as CPython preserves insertion order),
otherwise appends the new binding at the end. -/
def assocSet {β : Type} (l : List (String × β)) (k : String) (v : β) :
    List (String × β) :=
  if (alookup k l).isSome then
    l.map (fun kv => if kv.1 = k then (k, v) else kv)
  else
    l ++ [(k, v)]

/-- A value stored under a numeric key of the `GPSInfo` EXIF sub-dictionary
(src/snaplog_natural.py, `extract_practical_info`).  `triple` is a 3-tuple of
numbers (rationals model the floats/Rationals PIL returns); `badTriple` is a
3-tuple whose elements make `float()` raise; `txt` is a string such as a
hemisphere reference; `other` is any other Python value (not a 3-tuple, not
a string). -/
inductive GpsVal where
  | triple (d m s : ℚ)
  | badTriple
  | txt (r : String)
  | other
  deriving DecidableEq, Repr

/-- A raw EXIF tag value as observed by `extract_practical_info`:
a string, the GPS sub-dictionary, or any other Python object abstracted by
its `str()` rendering and its truthiness. -/
inductive ExifVal where
  | str (s : String)
  | gps (g : List (Nat × GpsVal))
  | obj (rep : String) (isTruthy : Bool)
  deriving DecidableEq, Repr

/-- Python truthiness of an EXIF value (`if metadata[field]:`). -/
def truthy : ExifVal → Bool
  | .str s => !s.isEmpty
  | .gps g => !g.isEmpty
  | .obj _ t => t

/-- Python `str()` of an EXIF value.  The `repr` of a GPS dict is abstracted
to a fixed marker (the program only ever feeds GPS dicts to the location
path, never to the time path, so the exact dict repr is irrelevant). -/
def pyStr : ExifVal → String
  | .str s => s
  | .gps _ => "<GPSInfo>"
  | .obj r _ => r

/-- Raw image metadata: tag-name-to-value map (src/snaplog_natural.py,
`extract_image_metadata` output). -/
abbrev Metadata : Type := List (String × ExifVal)

/-- The normalized practical info record: exactly the two optional fields the
source initializes (`info = {'time': None, 'location': None}`). -/
structure PracticalInfo where
  time : Option String
  location : Option String
  deriving DecidableEq, Repr

/-- The prioritized list of timestamp tags exactly as the source writes it:
`time_fields = ['DateTime', 'DateTimeOriginal', 'DateTimeDigitized']`. -/
def time_fields : List String := ["DateTime", "DateTimeOriginal", "DateTimeDigitized"]

/-- The source's syntactic validity test on a candidate timestamp string:
`':' in time_str and len(time_str) >= 19`. -/
def timeValid (s : String) : Bool :=
  s.data.contains ':' && decide (s.data.length ≥ 19)

/-- The source's reformatting of a valid timestamp:
`time_str[:10].replace(':', '-')` then `time_str[11:16]`, joined by a
space. -/
def reformatTime (s : String) : String :=
  let datePart : String := ⟨(s.data.take 10).map (fun c => if c = ':' then '-' else c)⟩
  let timePart : String := ⟨(s.data.drop 11).take 5⟩
  datePart ++ " " ++ timePart

/-- One iteration step of the time-field loop: the contribution of a single
tag name, `none` when the tag is absent, falsy, or syntactically invalid. -/
def fieldGives (md : Metadata) (f : String) : Option String :=
  match alookup f md with
  | some v =>
      if truthy v then
        if timeValid (pyStr v) then some (reformatTime (pyStr v)) else none
      else none
  | none => none

/-- The `for field in time_fields` loop: first present, truthy and valid tag
wins (`break`); an invalid or falsy value falls through to the next tag. -/
def timeLoop (md : Metadata) : List String → Option String
  | [] => none
  | f :: rest =>
      match fieldGives md f with
      | some t => some t
      | none => timeLoop md rest

/-- `convert_to_degrees`: a 3-tuple decodes to `d + m/60 + s/3600`; a
malformed 3-tuple makes `float()` raise (modelled as `Except.error`); any
non-3-tuple value returns `None`. -/
def convert_to_degrees : GpsVal → Except Unit (Option ℚ)
  | .triple d m s => .ok (some (d + m / 60 + s / 3600))
  | .badTriple => .error ()
  | _ => .ok none

/-- The guard `k in gps_info and gps_info[k] == ref` (string comparison with
a non-string value is `False` in Python, never an error). -/
def refIs (g : List (Nat × GpsVal)) (k : Nat) (r : String) : Bool :=
  match alookup k g with
  | some (.txt t) => t = r
  | _ => false

/-- The body of the GPS `try:` block up to the lat/lon pair: decodes latitude
(key 2, negated when key 1 equals `'S'`) then longitude (key 4, negated when
key 3 equals `'W'`).  `Except.error` models an escaping exception: note that
`lat = -lat` with `lat is None` raises `TypeError` in Python, so a present
Southern reference combined with an undecodable latitude aborts the whole
block. -/
def gpsLatLon (g : List (Nat × GpsVal)) : Except Unit (Option ℚ × Option ℚ) := do
  let lat : Option ℚ ←
    match alookup 2 g with
    | some v => do
        let l ← convert_to_degrees v
        if refIs g 1 "S" then
          match l with
          | some x => pure (some (-x))
          | none => Except.error ()
        else
          pure l
    | none => pure none
  let lon : Option ℚ ←
    match alookup 4 g with
    | some v => do
        let l ← convert_to_degrees v
        if refIs g 3 "W" then
          match l with
          | some x => pure (some (-x))
          | none => Except.error ()
        else
          pure l
    | none => pure none
  pure (lat, lon)

/-- Rounding to hundredths, modelling the `:.2f` float format on the exact
rational value. -/
def round2 (q : ℚ) : ℤ := round (q * 100)

/-- Decimal rendering with exactly two digits after the point, as `:.2f`
prints. -/
def fmt2 (q : ℚ) : String :=
  let n : ℤ := round2 q
  let a : ℕ := n.natAbs
  (if n < 0 then "-" else "") ++ toString (a / 100) ++ "." ++
    (if a % 100 < 10 then "0" else "") ++ toString (a % 100)

/-- The location hint string
`f"위치 정보 있음 (위도: {lat:.2f}, 경도: {lon:.2f})"`. -/
def locationHint (lat lon : ℚ) : String :=
  "위치 정보 있음 (위도: " ++ fmt2 lat ++ ", 경도: " ++ fmt2 lon ++ ")"

/-- The lat/lon pair when and only when both coordinates decode successfully
with no escaping exception. -/
def gpsSuccess (g : List (Nat × GpsVal)) : Option (ℚ × ℚ) :=
  match gpsLatLon g with
  | .ok (some lat, some lon) => some (lat, lon)
  | _ => none

/-- The whole GPS block of `extract_practical_info`: runs only when
`'GPSInfo' in metadata and metadata['GPSInfo']`; any exception inside the
`try:` is swallowed (`except: pass`), leaving the location absent.  A truthy
`GPSInfo` value that is not a dict makes `2 in gps_info` raise, which the
same `except:` swallows, so it also yields `none`. -/
def extractLocation (md : Metadata) : Option String :=
  match alookup "GPSInfo" md with
  | some v =>
      if truthy v then
        match v with
        | .gps g =>
            match gpsSuccess g with
            | some (lat, lon) => some (locationHint lat lon)
            | none => none
        | _ => none
      else none
  | none => none

/-- `extract_practical_info` (src/snaplog_natural.py lines 52-102). -/
def extract_practical_info (md : Metadata) : PracticalInfo :=
  { time := timeLoop md time_fields
    location := extractLocation md }

/-- The file system as the pipeline observes it: per path, the outcome of
opening the image and reading its EXIF map, and the outcome of reading its
bytes and base64-encoding them (`encode_image_to_base64`).  The error
payload is the exception text. -/
structure FileSys where
  meta : String → Except String Metadata
  bytes : String → Except String String

/-- `extract_image_metadata`: returns the tag map, or `{}` after printing a
diagnostic when any read/parse step raises. -/
def extract_image_metadata (fs : FileSys) (p : String) : Metadata :=
  match fs.meta p with
  | .ok m => m
  | .error _ => []

/-- One element of the message content list sent to the model: the text
prompt, or one `image_url` payload dict abstracted to its data URL. -/
inductive Content where
  | text (t : String)
  | image (url : String)
  deriving DecidableEq, Repr

/-- The payload dict built for one successfully encoded image:
`data:image/jpeg;base64,` followed by the base64 data. -/
def imagePayload (b64 : String) : Content :=
  .image ("data:image/jpeg;base64," ++ b64)

/-- The per-image hint string (src/snaplog_natural.py lines 135-141):
time part then location part joined by `" | "`, or the literal
no-metadata marker. -/
def mkHint (i : Nat) (info : PracticalInfo) : String :=
  let hint_parts : List String :=
    (match info.time with
     | some t => ["촬영시간: " ++ t]
     | none => []) ++
    (match info.location with
     | some _ => ["위치정보: 있음"]
     | none => [])
  "사진 " ++ toString (i + 1) ++ ": " ++
    (if hint_parts.isEmpty then "메타데이터 없음" else String.intercalate " | " hint_parts)

/-- The per-image loop of `generate_natural_diary` (lines 128-152): for the
i-th path, always appends its hint to `practical_hints`, and appends an image
payload to `image_contents` only when encoding succeeds (`except: continue`
skips just the append). -/
def processImages (fs : FileSys) (i : Nat) :
    List String → List String × List Content
  | [] => ([], [])
  | p :: rest =>
      let md := extract_image_metadata fs p
      let info := extract_practical_info md
      let hint := mkHint i info
      let (hs, cs) := processImages fs (i + 1) rest
      (hint :: hs,
       match fs.bytes p with
       | .ok b => imagePayload b :: cs
       | .error _ => cs)

/-- The `metadata_text` joining step (line 155). -/
def metadataTextOf (fs : FileSys) (paths : List String) : String :=
  let hints := (processImages fs 0 paths).1
  if hints.isEmpty then "메타데이터 정보 없음" else String.intercalate "\n" hints

/-- The fixed guideline text after the metadata hole of the prompt
f-string. -/
def promptTail : String :=
  "\n\n작성 가이드라인:\n1. 친구에게 하루 얘기하듯이 자연스럽고 편안한 톤으로 작성\n2. 과도한 감성 표현이나 문학적 수사는 피하고, 실제 있었던 일들을 중심으로 서술\n3. 시간, 장소, 활동, 함께한 사람들을 자연스럽게 포함\n4. 사진들 간의 시간 순서를 고려하여 하루의 흐름을 보여주기\n5. 적당한 분량으로 읽기 좋게 구성 (너무 길지도 짧지도 않게)\n\n예시 톤:\n- \"오늘 오전에 공원에 갔다. 아이들과 함께 놀이터에서 놀았는데...\"\n- \"점심 시간에 회사 근처 식당에서 동료들과 식사했다...\"\n- \"저녁에는 집에서 가족과 함께 시간을 보냈다...\"\n\n일기처럼 쓰되, 과장되지 않고 실제 경험을 담은 자연스러운 기록을 만들어주세요.\n"

/-- The prompt f-string (lines 158-177) with the style and metadata text
interpolated at their two holes. -/
def promptText (style metadata_text : String) : String :=
  "\n이 사진들을 보고 " ++ style ++ " 톤으로 하루 일과를 기록해주세요.\n\n참고할 촬영 정보:\n" ++
    metadata_text ++ promptTail

/-- The message content list sent to the model: the text prompt followed by
the collected image payloads (line 181). -/
def composedRequest (fs : FileSys) (paths : List String) (style : String) :
    List Content :=
  Content.text (promptText style (metadataTextOf fs paths)) ::
    (processImages fs 0 paths).2

/-- The fixed text preceding `str(e)` in the fallback f-string
(lines 189-196). -/
def fallbackHead : String := "\n일상 기록 생성 중 오류가 발생했습니다: "

/-- The fixed text following `str(e)` in the fallback f-string. -/
def fallbackTail : String :=
  "\n\n오늘도 여러 가지 일들이 있었던 하루였습니다.\n사진으로 남긴 순간들을 보면 나름 의미 있는 시간들을 보낸 것 같습니다.\n비록 완전한 기록은 남기지 못했지만, \n이런 소소한 일상들이 모여 우리의 삶을 만들어가는 것 같습니다.\n"

/-- `generate_natural_diary` (src/snaplog_natural.py lines 109-196).  The
external model call is a parameter `invoke` (the black-box capability);
its `Except.error` payload is `str(e)` of the raised exception.  On success
the raw `response.content` is returned unmodified; on failure the fallback
f-string with the error text at its single hole. -/
def generate_natural_diary (fs : FileSys)
    (invoke : List Content → Except String String)
    (image_paths : List String) (style_preference : String) : String :=
  match invoke (composedRequest fs image_paths style_preference) with
  | .ok r => r
  | .error e => fallbackHead ++ e ++ fallbackTail

/-- `STYLE_OPTIONS` (src/app_simple.py lines 38-43): long-form label to
internal style tag, in source order. -/
def STYLE_OPTIONS : List (String × String) :=
  [("자연스럽고 편안한", "자연스러운"),
   ("감성적이고 서정적인", "감성적"),
   ("간결하고 명확한", "간결한"),
   ("상세하고 구체적인", "상세한")]

/-- `STYLE_OPTIONS[label]`: `none` models the `KeyError` raised on an
unknown label. -/
def styleOptionOf (label : String) : Option String :=
  alookup label STYLE_OPTIONS

/-- One stored diary entry (src/app_simple.py lines 100-105). -/
structure DiaryEntry where
  content : String
  style : String
  image_count : Nat
  created_at : String
  deriving DecidableEq, Repr

/-- A day document: the JSON object of one `YYYY-MM-DD.json` file, a map
from `HH:MM:SS` time-key to entry in insertion order. -/
abbrev DayDoc : Type := List (String × DiaryEntry)

/-- The parse outcome of one stored file: a day document, or the message of
the exception `json.load` raises on a corrupt file. -/
inductive FileVal where
  | good (doc : DayDoc)
  | bad (err : String)
  deriving DecidableEq, Repr

/-- The storage directory, keyed by file stem (the `YYYY-MM-DD` date
string); `save_diary` writes `stem + ".json"` and `load_saved_diaries`
globs `*.json`, so the stem is the shared key. -/
abbrev Store : Type := List (String × FileVal)

/-- `save_diary` (src/app_simple.py lines 83-111): read the existing day
file if any (a corrupt existing file makes `json.load` raise, which
propagates to the caller), insert the new entry under the `HH:MM:SS`
time-key (silently overwriting a same-second entry), write the whole
document back.  `hms` and `iso` are the two `datetime.now()` renderings at
call time. -/
def save_diary (store : Store) (hms iso : String)
    (diary_content : String) (diary_date : String)
    (style : String) (image_count : Nat) : Except String Store :=
  let data : Except String DayDoc :=
    match alookup diary_date store with
    | some (.good d) => .ok d
    | some (.bad e) => .error e
    | none => .ok []
  data.map (fun d =>
    assocSet store diary_date
      (.good (assocSet d hms
        { content := diary_content, style := style,
          image_count := image_count, created_at := iso })))

/-- The per-file loop of `load_saved_diaries`: a good file contributes its
document under its date stem; a corrupt file contributes only the
`st.error` diagnostic text and the scan continues. -/
def scanFiles : List (String × FileVal) → List (String × DayDoc) × List String
  | [] => ([], [])
  | (d, .good doc) :: rest =>
      let r := scanFiles rest
      ((d, doc) :: r.1, r.2)
  | (d, .bad e) :: rest =>
      let r := scanFiles rest
      (r.1, ("일기 파일 읽기 오류 (" ++ d ++ ".json): " ++ e) :: r.2)

/-- `load_saved_diaries` (src/app_simple.py lines 113-129): globbed files
sorted by name descending (`sort(reverse=True)`), then the parse loop.
Returns the diaries map (insertion order of the loop) together with the
emitted diagnostics. -/
def load_saved_diaries (store : Store) : List (String × DayDoc) × List String :=
  scanFiles (store.mergeSort (fun a b => decide (b.1 ≤ a.1)))

/-
  ==========================================================================
  Helper lemmas (shared across the claim theorems below)
  ==========================================================================
-/

theorem alookup_eq_none {α β : Type} [DecidableEq α] (k : α) (l : List (α × β)) :
    alookup k l = none ↔ k ∉ l.map Prod.fst := by
  induction l with
  | nil => simp [alookup]
  | cons kv rest ih =>
      obtain ⟨k', v⟩ := kv
      by_cases h : k' = k
      · subst h; simp [alookup]
      · simp [alookup, h, ih, Ne.symm h]

theorem extract_time_orElse (md : Metadata) :
    (extract_practical_info md).time =
      (fieldGives md "DateTime" <|> fieldGives md "DateTimeOriginal" <|>
        fieldGives md "DateTimeDigitized") := by
  show timeLoop md time_fields = _
  simp only [time_fields, timeLoop]
  cases fieldGives md "DateTime" <;>
    cases fieldGives md "DateTimeOriginal" <;>
      cases fieldGives md "DateTimeDigitized" <;> rfl

theorem processImages_fst_length (fs : FileSys) (i : Nat) (paths : List String) :
    ((processImages fs i paths).1).length = paths.length := by
  induction paths generalizing i with
  | nil => rfl
  | cons p rest ih => simpa [processImages] using ih (i + 1)

theorem processImages_snd_eq (fs : FileSys) (i : Nat) (paths : List String) :
    (processImages fs i paths).2 =
      paths.filterMap (fun p =>
        match fs.bytes p with
        | .ok b => some (imagePayload b)
        | .error _ => none) := by
  induction paths generalizing i with
  | nil => rfl
  | cons p rest ih =>
      simp only [processImages, List.filterMap_cons]
      cases fs.bytes p <;> simp [ih (i + 1)]

theorem char_ne_colon {c : Char} (h : c.isDigit) : ¬(c = ':') := by
  intro hc; subst hc; simp [Char.isDigit] at h

theorem str_isEmpty_false {s : String} (h : s.data.length = 19) :
    s.isEmpty = false := by
  cases hb : s.isEmpty
  · rfl
  · exfalso
    have := (String.isEmpty_iff s).mp hb
    subst this
    simp at h

theorem reformat_pieces (y mo dd hh mi ss : String)
    (hy : y.data.length = 4) (hmo : mo.data.length = 2) (hdd : dd.data.length = 2)
    (hhh : hh.data.length = 2) (hmi : mi.data.length = 2)
    (hdig : ∀ c ∈ y.data ++ mo.data ++ dd.data, c.isDigit) :
    reformatTime (y ++ ":" ++ mo ++ ":" ++ dd ++ " " ++ hh ++ ":" ++ mi ++ ":" ++ ss) =
      y ++ "-" ++ mo ++ "-" ++ dd ++ " " ++ hh ++ ":" ++ mi := by
  obtain ⟨a1, ty, hy'⟩ := List.exists_of_length_succ _ hy
  obtain ⟨a2, a3, a4, hty⟩ := List.length_eq_three.mp (by simpa [hy'] using hy)
  obtain ⟨b1, b2, hmo'⟩ := List.length_eq_two.mp hmo
  obtain ⟨c1, c2, hdd'⟩ := List.length_eq_two.mp hdd
  obtain ⟨d1, d2, hhh'⟩ := List.length_eq_two.mp hhh
  obtain ⟨e1, e2, hmi'⟩ := List.length_eq_two.mp hmi
  have hyd := hy'.trans (by rw [hty])
  have h1 : a1.isDigit := hdig a1 (by simp [hyd])
  have h2 : a2.isDigit := hdig a2 (by simp [hyd])
  have h3 : a3.isDigit := hdig a3 (by simp [hyd])
  have h4 : a4.isDigit := hdig a4 (by simp [hyd])
  have h5 : b1.isDigit := hdig b1 (by simp [hmo'])
  have h6 : b2.isDigit := hdig b2 (by simp [hmo'])
  have h7 : c1.isDigit := hdig c1 (by simp [hdd'])
  have h8 : c2.isDigit := hdig c2 (by simp [hdd'])
  apply String.ext
  have hbig : (y ++ ":" ++ mo ++ ":" ++ dd ++ " " ++ hh ++ ":" ++ mi ++ ":" ++ ss).data
      = y.data ++ [':'] ++ mo.data ++ [':'] ++ dd.data ++ [' '] ++ hh.data ++ [':']
          ++ mi.data ++ [':'] ++ ss.data := rfl
  show ((((y ++ ":" ++ mo ++ ":" ++ dd ++ " " ++ hh ++ ":" ++ mi ++ ":" ++ ss).data.take 10).map
      (fun c => if c = ':' then '-' else c)) ++ (" ".data) ++
        (((y ++ ":" ++ mo ++ ":" ++ dd ++ " " ++ hh ++ ":" ++ mi ++ ":" ++ ss).data.drop 11).take 5)) = _
  rw [hbig, hyd, hmo', hdd', hhh', hmi']
  simp [char_ne_colon, h1, h2, h3, h4, h5, h6, h7, h8, hyd, hmo', hdd', hhh', hmi']

theorem fieldGives_of_valid (f : String) (md : Metadata)
    (y mo dd hh mi ss : String)
    (hy : y.data.length = 4) (hmo : mo.data.length = 2) (hdd : dd.data.length = 2)
    (hhh : hh.data.length = 2) (hmi : mi.data.length = 2) (hss : ss.data.length = 2)
    (hmd : alookup f md =
      some (.str (y ++ ":" ++ mo ++ ":" ++ dd ++ " " ++ hh ++ ":" ++ mi ++ ":" ++ ss))) :
    fieldGives md f =
      some (reformatTime (y ++ ":" ++ mo ++ ":" ++ dd ++ " " ++ hh ++ ":" ++ mi ++ ":" ++ ss)) := by
  have hbig : (y ++ ":" ++ mo ++ ":" ++ dd ++ " " ++ hh ++ ":" ++ mi ++ ":" ++ ss).data
      = y.data ++ [':'] ++ mo.data ++ [':'] ++ dd.data ++ [' '] ++ hh.data ++ [':']
          ++ mi.data ++ [':'] ++ ss.data := rfl
  have hlen : (y ++ ":" ++ mo ++ ":" ++ dd ++ " " ++ hh ++ ":" ++ mi ++ ":" ++ ss).data.length
      = 19 := by
    rw [hbig]; simp [hy, hmo, hdd, hhh, hmi, hss]
  have hval : timeValid (y ++ ":" ++ mo ++ ":" ++ dd ++ " " ++ hh ++ ":" ++ mi ++ ":" ++ ss)
      = true := by
    unfold timeValid
    rw [hlen]
    have hmem : (':' : Char) ∈
        (y ++ ":" ++ mo ++ ":" ++ dd ++ " " ++ hh ++ ":" ++ mi ++ ":" ++ ss).data := by
      rw [hbig]; simp
    simp [List.elem_eq_true_of_mem hmem]
  simp [fieldGives, hmd, truthy, str_isEmpty_false hlen, hval, pyStr]

theorem gpsLatLon_full (g : List (Nat × GpsVal))
    (dla mla sla dlo mlo slo : ℚ) (rla rlo : String)
    (h2 : alookup 2 g = some (.triple dla mla sla))
    (h1 : alookup 1 g = some (.txt rla))
    (h4 : alookup 4 g = some (.triple dlo mlo slo))
    (h3 : alookup 3 g = some (.txt rlo)) :
    gpsLatLon g = .ok
      (some (if rla = "S" then -(dla + mla / 60 + sla / 3600)
             else dla + mla / 60 + sla / 3600),
       some (if rlo = "W" then -(dlo + mlo / 60 + slo / 3600)
             else dlo + mlo / 60 + slo / 3600)) := by
  have hr1 : refIs g 1 "S" = decide (rla = "S") := by simp [refIs, h1]
  have hr3 : refIs g 3 "W" = decide (rlo = "W") := by simp [refIs, h3]
  unfold gpsLatLon
  rw [h2, h4, hr1, hr3]
  by_cases hS : rla = "S" <;> by_cases hW : rlo = "W"
  · subst hS; subst hW; rfl
  · subst hS; rw [decide_eq_false hW, if_neg hW]; rfl
  · subst hW; rw [decide_eq_false hS, if_neg hS]; rfl
  · rw [decide_eq_false hS, decide_eq_false hW, if_neg hS, if_neg hW]; rfl

theorem alookup_append {α β : Type} [DecidableEq α] (k : α) (l1 l2 : List (α × β)) :
    alookup k (l1 ++ l2) =
      match alookup k l1 with
      | some v => some v
      | none => alookup k l2 := by
  induction l1 with
  | nil => simp [alookup]
  | cons kv rest ih =>
      obtain ⟨k', v⟩ := kv
      by_cases hk : k' = k <;> simp [alookup, hk, ih]

theorem alookup_map_set {β : Type} (l : List (String × β)) (k : String) (v : β) :
    alookup k (l.map (fun kv => if kv.1 = k then (k, v) else kv)) =
      if (alookup k l).isSome then some v else none := by
  induction l with
  | nil => simp [alookup]
  | cons kv rest ih =>
      obtain ⟨k0, w⟩ := kv
      by_cases hk : k0 = k
      · subst hk
        have hhead : (if (k0, w).1 = k0 then ((k0, v) : String × β) else (k0, w))
            = (k0, v) := by simp
        rw [List.map_cons, hhead]
        simp [alookup]
      · have hhead : (if (k0, w).1 = k then ((k, v) : String × β) else (k0, w))
            = (k0, w) := by simp [hk]
        rw [List.map_cons, hhead]
        simp [alookup, hk, ih]

theorem alookup_map_set_ne {β : Type} (l : List (String × β)) (k k' : String) (v : β)
    (h : k' ≠ k) :
    alookup k' (l.map (fun kv => if kv.1 = k then (k, v) else kv)) = alookup k' l := by
  induction l with
  | nil => simp [alookup]
  | cons kv rest ih =>
      obtain ⟨k0, w⟩ := kv
      by_cases hk : k0 = k
      · subst hk
        have hhead : (if (k0, w).1 = k0 then ((k0, v) : String × β) else (k0, w))
            = (k0, v) := by simp
        rw [List.map_cons, hhead]
        simp [alookup, Ne.symm h, ih]
      · have hhead : (if (k0, w).1 = k then ((k, v) : String × β) else (k0, w))
            = (k0, w) := by simp [hk]
        rw [List.map_cons, hhead]
        simp [alookup, hk, ih]

theorem alookup_assocSet_self {β : Type} (l : List (String × β)) (k : String) (v : β) :
    alookup k (assocSet l k v) = some v := by
  unfold assocSet
  by_cases h : (alookup k l).isSome
  · rw [if_pos h, alookup_map_set, if_pos h]
  · rw [if_neg h, alookup_append]
    have hnone : alookup k l = none := by
      cases hh : alookup k l
      · rfl
      · rw [hh] at h; simp at h
    rw [hnone]
    simp [alookup]

theorem alookup_assocSet_other {β : Type} (l : List (String × β)) (k k' : String) (v : β)
    (h : k' ≠ k) :
    alookup k' (assocSet l k v) = alookup k' l := by
  unfold assocSet
  by_cases hs : (alookup k l).isSome
  · rw [if_pos hs, alookup_map_set_ne l k k' v h]
  · rw [if_neg hs, alookup_append]
    cases hh : alookup k' l
    · simp [alookup, Ne.symm h]
    · simp

theorem assocSet_keys {β : Type} (l : List (String × β)) (k : String) (v : β) :
    (assocSet l k v).map Prod.fst =
      if (alookup k l).isSome then l.map Prod.fst else l.map Prod.fst ++ [k] := by
  unfold assocSet
  by_cases h : (alookup k l).isSome
  · rw [if_pos h, if_pos h, List.map_map]
    apply List.map_congr_left
    intro kv _
    by_cases hk : kv.1 = k
    · simp [hk]
    · simp [hk]
  · rw [if_neg h, if_neg h]
    simp

theorem assocSet_nodupkeys {β : Type} (l : List (String × β)) (k : String) (v : β)
    (hn : (l.map Prod.fst).Nodup) : ((assocSet l k v).map Prod.fst).Nodup := by
  rw [assocSet_keys]
  by_cases h : (alookup k l).isSome
  · rwa [if_pos h]
  · rw [if_neg h]
    have hnone : alookup k l = none := by
      cases hh : alookup k l
      · rfl
      · rw [hh] at h; simp at h
    have hnotmem : k ∉ l.map Prod.fst := (alookup_eq_none k l).mp hnone
    simp [List.nodup_append, hn, hnotmem]

theorem alookup_perm {α β : Type} [DecidableEq α] {l1 l2 : List (α × β)}
    (h : l1.Perm l2) (hn : (l1.map Prod.fst).Nodup) (k : α) :
    alookup k l1 = alookup k l2 := by
  induction h with
  | nil => rfl
  | cons x h ih =>
      obtain ⟨k', v⟩ := x
      simp only [List.map_cons, List.nodup_cons] at hn
      by_cases hk : k' = k <;> simp [alookup, hk, ih hn.2]
  | swap x y l =>
      obtain ⟨ka, va⟩ := x
      obtain ⟨kb, vb⟩ := y
      simp only [List.map_cons, List.nodup_cons, List.mem_cons] at hn
      have hne : kb ≠ ka := fun hc => hn.1 (Or.inl hc)
      by_cases ha : ka = k <;> by_cases hb : kb = k
      · exact absurd (ha.trans hb.symm) (fun hc => hne hc.symm)
      · simp [alookup, ha, hb]
      · simp [alookup, ha, hb]
      · simp [alookup, ha, hb]
  | trans h1 h2 ih1 ih2 =>
      have hn2 := ((h1.map Prod.fst).nodup_iff).mp hn
      rw [ih1 hn, ih2 hn2]

/-- The diagnostic text a corrupt file contributes, as a function of its
store binding. -/
def diagOf (f : String × FileVal) : Option String :=
  match f.2 with
  | .bad e => some ("일기 파일 읽기 오류 (" ++ f.1 ++ ".json): " ++ e)
  | _ => none

theorem scanFiles_lookup (files : List (String × FileVal)) (d : String)
    (hn : (files.map Prod.fst).Nodup) :
    alookup d (scanFiles files).1 =
      match alookup d files with
      | some (.good doc) => some doc
      | _ => none := by
  induction files with
  | nil => rfl
  | cons f rest ih =>
      obtain ⟨df, v⟩ := f
      simp only [List.map_cons, List.nodup_cons] at hn
      cases v with
      | good doc =>
          by_cases hd : df = d
          · subst hd; simp [alookup, scanFiles]
          · simp [alookup, scanFiles, hd, ih hn.2]
      | bad e =>
          by_cases hd : df = d
          · subst hd
            have hnone : alookup df rest = none :=
              (alookup_eq_none df rest).mpr hn.1
            simp [alookup, scanFiles, ih hn.2, hnone]
          · simp [alookup, scanFiles, hd, ih hn.2]

theorem scanFiles_diags (files : List (String × FileVal)) :
    (scanFiles files).2 = files.filterMap diagOf := by
  induction files with
  | nil => rfl
  | cons f rest ih =>
      obtain ⟨df, v⟩ := f
      cases v <;> simp [scanFiles, diagOf, ih]

theorem load_lookup (store : Store) (hn : (store.map Prod.fst).Nodup) (d : String) :
    alookup d (load_saved_diaries store).1 =
      match alookup d store with
      | some (.good doc) => some doc
      | _ => none := by
  unfold load_saved_diaries
  have hperm : (store.mergeSort (fun a b => decide (b.1 ≤ a.1))).Perm store :=
    List.mergeSort_perm store _
  have hn2 : ((store.mergeSort (fun a b => decide (b.1 ≤ a.1))).map Prod.fst).Nodup :=
    ((hperm.map Prod.fst).nodup_iff).mpr hn
  rw [scanFiles_lookup _ d hn2, alookup_perm hperm hn2 d]

theorem load_diags (store : Store) :
    (load_saved_diaries store).2.Perm (store.filterMap diagOf) := by
  unfold load_saved_diaries
  rw [scanFiles_diags]
  exact (List.mergeSort_perm store _).filterMap diagOf

theorem save_diary_existing (store : Store) (d : String) (doc : DayDoc)
    (hd : alookup d store = some (.good doc)) (hms iso c s : String) (n : Nat) :
    save_diary store hms iso c d s n =
      .ok (assocSet store d (.good (assocSet doc hms
        { content := c, style := s, image_count := n, created_at := iso }))) := by
  unfold save_diary
  rw [hd]
  rfl

/-
  ==========================================================================
  Claim theorems
  ==========================================================================
-/

/-- Concrete metadata map holding both a valid original-capture timestamp
and a valid (different) generic timestamp. -/
def mdBothTimes : Metadata :=
  [("DateTimeOriginal", ExifVal.str "1999:05:05 05:05:05"),
   ("DateTime", ExifVal.str "2020:01:01 10:20:30")]

/-- C1 counterexample: with both the original-capture tag (valid, yielding
"1999-05-05 05:05") and the generic tag (valid, yielding "2020-01-01 10:20")
present, normalize returns the generic tag's time, not the original-capture
tag's time — so the claimed priority (original-capture first) is false. -/
theorem c1_counterexample :
    (extract_practical_info mdBothTimes).time = some "2020-01-01 10:20" ∧
    (extract_practical_info mdBothTimes).time ≠ some "1999-05-05 05:05" := by
  refine ⟨rfl, ?_⟩
  intro h
  rw [show (extract_practical_info mdBothTimes).time = some "2020-01-01 10:20" from rfl] at h
  simp at h

/-- C1 (amended): the priority order of the three timestamp tags is the
generic tag (`DateTime`) first, then the original-capture tag
(`DateTimeOriginal`), then the digitized tag (`DateTimeDigitized`); the
first tag that is present, truthy and syntactically valid wins. -/
theorem c1_time_priority (md : Metadata) :
    (extract_practical_info md).time =
      (fieldGives md "DateTime" <|> fieldGives md "DateTimeOriginal" <|>
        fieldGives md "DateTimeDigitized") :=
  extract_time_orElse md

/-- A stub file system on which every read fails. -/
def fsEmpty : FileSys :=
  { meta := fun _ => .error "파일 없음", bytes := fun _ => .error "파일 없음" }

/-- A stub model capability that always succeeds with a fixed diary text. -/
def invokeOkStub : List Content → Except String String :=
  fun _ => .ok "오늘은 좋은 하루였다."

/-- A stub model capability that always fails. -/
def invokeErrStub : List Content → Except String String :=
  fun _ => .error "쿼터 초과"

/-- C2 counterexample: the label "아무스타일" is outside the fixed enumerated
style set (the `STYLE_OPTIONS` lookup signals a `KeyError`, modelled as
`none`), yet the diary-generation pipeline accepts it and processes the call
normally, returning the model's response — it does not fail fast. -/
theorem c2_counterexample :
    styleOptionOf "아무스타일" = none ∧
    generate_natural_diary fsEmpty invokeOkStub ["p.jpg"] "아무스타일" =
      "오늘은 좋은 하루였다." :=
  ⟨rfl, rfl⟩

/-- C2 (amended): only the UI-side `STYLE_OPTIONS` dictionary lookup signals
an unrecognized style label (a `KeyError`); the diary-generation function
itself performs no style validation — any label, recognized or not, is
accepted and the call is processed normally. -/
theorem c2_no_style_validation (label : String)
    (h : styleOptionOf label = none) :
    label ∉ STYLE_OPTIONS.map Prod.fst ∧
    ∀ fs invoke paths r,
      invoke (composedRequest fs paths label) = .ok r →
      generate_natural_diary fs invoke paths label = r := by
  refine ⟨(alookup_eq_none label STYLE_OPTIONS).mp h, ?_⟩
  intro fs invoke paths r hr
  simp [generate_natural_diary, hr]

/-- C2 witness: the amended statement at the concrete unknown label
"아무스타일" with stub file system and capability. -/
theorem c2_no_style_validation_witness :
    "아무스타일" ∉ STYLE_OPTIONS.map Prod.fst ∧
    generate_natural_diary fsEmpty invokeOkStub ["q.jpg"] "아무스타일" =
      "오늘은 좋은 하루였다." :=
  ⟨(c2_no_style_validation "아무스타일" rfl).1,
   (c2_no_style_validation "아무스타일" rfl).2 fsEmpty invokeOkStub ["q.jpg"] _ rfl⟩

/-- C3: generate never propagates a failure of the model invocation — every
error yields the fixed-shape fallback with the stringified error detail at
its single hole — and every successful invocation's raw response text is
returned unmodified. -/
theorem c3_failure_policy (fs : FileSys)
    (invoke : List Content → Except String String)
    (paths : List String) (style : String) :
    (∀ e, invoke (composedRequest fs paths style) = .error e →
        generate_natural_diary fs invoke paths style =
          fallbackHead ++ e ++ fallbackTail) ∧
    (∀ r, invoke (composedRequest fs paths style) = .ok r →
        generate_natural_diary fs invoke paths style = r) := by
  constructor <;> intro x h <;> simp [generate_natural_diary, h]

/-- C3 witness: the failure branch at a concrete failing capability and the
success branch at a concrete succeeding capability. -/
theorem c3_failure_policy_witness :
    generate_natural_diary fsEmpty invokeErrStub ["p.jpg"] "자연스럽고 편안한" =
      fallbackHead ++ "쿼터 초과" ++ fallbackTail ∧
    generate_natural_diary fsEmpty invokeOkStub ["p.jpg"] "자연스럽고 편안한" =
      "오늘은 좋은 하루였다." :=
  ⟨(c3_failure_policy fsEmpty invokeErrStub ["p.jpg"] "자연스럽고 편안한").1
      "쿼터 초과" rfl,
   (c3_failure_policy fsEmpty invokeOkStub ["p.jpg"] "자연스럽고 편안한").2
      "오늘은 좋은 하루였다." rfl⟩

/-- C6: the hint sequence built by generate is always exactly as long as the
image-path sequence, and an image whose metadata extraction fails still
contributes the "no metadata" hint at its position rather than a dropped
entry. -/
theorem c6_hint_length :
    (∀ fs i paths, ((processImages fs i paths).1).length = paths.length) ∧
    (∀ fs i p e rest, fs.meta p = .error e →
        (processImages fs i (p :: rest)).1 =
          ("사진 " ++ toString (i + 1) ++ ": " ++ "메타데이터 없음") ::
            (processImages fs (i + 1) rest).1) := by
  refine ⟨processImages_fst_length, ?_⟩
  intro fs i p e rest h
  simp [processImages, extract_image_metadata, h, extract_practical_info,
    mkHint, timeLoop, fieldGives, alookup, extractLocation, time_fields]

/-- C6 witness: one unreadable image yields exactly one hint, the literal
"no metadata" hint. -/
theorem c6_hint_length_witness :
    ((processImages fsEmpty 0 ["a.jpg"]).1).length = 1 ∧
    (processImages fsEmpty 0 ["a.jpg"]).1 = ["사진 1: 메타데이터 없음"] := by
  refine ⟨c6_hint_length.1 fsEmpty 0 ["a.jpg"], ?_⟩
  rw [c6_hint_length.2 fsEmpty 0 "a.jpg" "파일 없음" [] rfl]
  rfl

/-- C10: the image payloads composed into the model request are exactly the
successful encodings, in the original path order (an unreadable image's
payload is silently omitted while its hint remains), so the request may
carry fewer payloads than hints. -/
theorem c10_payload_omission :
    ∀ fs i paths,
      (processImages fs i paths).2 =
        paths.filterMap (fun p =>
          match fs.bytes p with
          | .ok b => some (imagePayload b)
          | .error _ => none) ∧
      ((processImages fs i paths).2).length ≤ ((processImages fs i paths).1).length := by
  intro fs i paths
  refine ⟨processImages_snd_eq fs i paths, ?_⟩
  rw [processImages_snd_eq fs i paths, processImages_fst_length fs i paths]
  exact List.length_filterMap_le _ _

/-- C4: with a GPS tag group carrying degree/minute/second triples under
keys 2 (latitude) and 4 (longitude) and reference strings under keys 1 and
3, normalize decodes each coordinate as degrees + minutes/60 + seconds/3600,
negates latitude exactly when the reference is "S" and longitude exactly
when it is "W", and emits the location hint carrying both values rounded to
two decimal places; conversely a location hint is emitted only when both
coordinates decode successfully, and then it is exactly their hint. -/
theorem c4_gps_location :
    (∀ (md : Metadata) (g : List (Nat × GpsVal))
        (dla mla sla dlo mlo slo : ℚ) (rla rlo : String),
      alookup "GPSInfo" md = some (.gps g) →
      alookup 2 g = some (.triple dla mla sla) →
      alookup 1 g = some (.txt rla) →
      alookup 4 g = some (.triple dlo mlo slo) →
      alookup 3 g = some (.txt rlo) →
      (extract_practical_info md).location =
        some (locationHint
          (if rla = "S" then -(dla + mla / 60 + sla / 3600)
           else dla + mla / 60 + sla / 3600)
          (if rlo = "W" then -(dlo + mlo / 60 + slo / 3600)
           else dlo + mlo / 60 + slo / 3600))) ∧
    (∀ (md : Metadata) (g : List (Nat × GpsVal)) (h : String),
      alookup "GPSInfo" md = some (.gps g) →
      (extract_practical_info md).location = some h →
      ∃ lat lon, gpsSuccess g = some (lat, lon) ∧ h = locationHint lat lon) := by
  constructor
  · intro md g dla mla sla dlo mlo slo rla rlo hmd h2 h1 h4 h3
    have hne : g ≠ [] := by
      intro h; rw [h] at h2; simp [alookup] at h2
    have hemp : g.isEmpty = false := by
      cases g with
      | nil => exact absurd rfl hne
      | cons a t => rfl
    have hfull := gpsLatLon_full g dla mla sla dlo mlo slo rla rlo h2 h1 h4 h3
    show extractLocation md = _
    simp [extractLocation, hmd, truthy, hemp, gpsSuccess, hfull]
  · intro md g h hmd hl
    have hl' : extractLocation md = some h := hl
    unfold extractLocation at hl'
    rw [hmd] at hl'
    cases hgi : g.isEmpty
    · simp only [truthy, hgi, Bool.not_false, if_true] at hl'
      cases hgs : gpsSuccess g with
      | none => rw [hgs] at hl'; cases hl'
      | some p =>
          obtain ⟨lat, lon⟩ := p
          rw [hgs] at hl'
          exact ⟨lat, lon, rfl, (Option.some_injective _ hl').symm⟩
    · simp [truthy, hgi] at hl'

/-- The GPS sub-dictionary of the worked example 37°33'12"N, 126°58'36"E. -/
def gSeoul : List (Nat × GpsVal) :=
  [(1, .txt "N"), (2, .triple 37 33 12), (3, .txt "E"), (4, .triple 126 58 36)]

/-- A metadata map carrying only the Seoul GPS tag group. -/
def mdSeoul : Metadata := [("GPSInfo", ExifVal.gps gSeoul)]

/-- C4 witness: 37°33'12"N, 126°58'36"E yields the hint with latitude 37.55
and longitude 126.98, and conversely that emitted hint comes from a fully
successful decode. -/
theorem c4_gps_location_witness :
    (extract_practical_info mdSeoul).location =
      some "위치 정보 있음 (위도: 37.55, 경도: 126.98)" ∧
    ∃ lat lon, gpsSuccess gSeoul = some (lat, lon) ∧
      "위치 정보 있음 (위도: 37.55, 경도: 126.98)" = locationHint lat lon := by
  have h := c4_gps_location.1 mdSeoul gSeoul 37 33 12 126 58 36 "N" "E"
    rfl rfl rfl rfl rfl
  have h1 : round2 ((37 : ℚ) + 33 / 60 + 12 / 3600) = 3755 := by
    unfold round2; rw [round_eq]; norm_num
  have h2 : round2 ((126 : ℚ) + 58 / 60 + 36 / 3600) = 12698 := by
    unfold round2; rw [round_eq]; norm_num
  rw [if_neg (by decide : ¬(("N" : String) = "S")),
    if_neg (by decide : ¬(("E" : String) = "W"))] at h
  have hfirst : (extract_practical_info mdSeoul).location =
      some "위치 정보 있음 (위도: 37.55, 경도: 126.98)" := by
    rw [h]
    unfold locationHint fmt2
    rw [h1, h2]
    rfl
  exact ⟨hfirst, c4_gps_location.2 mdSeoul gSeoul _ rfl hfirst⟩

/-- C5: every tag value syntactically valid in the format
"YYYY:MM:DD HH:MM:SS" (four digit-groups of widths 4,2,2 for the date,
2,2,2 for the time) stored under any of the three timestamp tags is
reformatted to "YYYY-MM-DD HH:MM" with the seconds dropped. -/
theorem c5_valid_reformat (f : String) (hf : f ∈ time_fields)
    (y mo dd hh mi ss : String)
    (hy : y.length = 4) (hmo : mo.length = 2) (hdd : dd.length = 2)
    (hhh : hh.length = 2) (hmi : mi.length = 2) (hss : ss.length = 2)
    (hdig : ∀ c ∈ y.data ++ mo.data ++ dd.data, c.isDigit) :
    (extract_practical_info
        [(f, ExifVal.str (y ++ ":" ++ mo ++ ":" ++ dd ++ " " ++ hh ++ ":" ++ mi ++ ":" ++ ss))]).time =
      some (y ++ "-" ++ mo ++ "-" ++ dd ++ " " ++ hh ++ ":" ++ mi) := by
  have hfg := fieldGives_of_valid f
    [(f, ExifVal.str (y ++ ":" ++ mo ++ ":" ++ dd ++ " " ++ hh ++ ":" ++ mi ++ ":" ++ ss))]
    y mo dd hh mi ss hy hmo hdd hhh hmi hss (by simp [alookup])
  have hrf := reformat_pieces y mo dd hh mi ss hy hmo hdd hhh hmi hdig
  rw [extract_time_orElse]
  simp only [time_fields, List.mem_cons, List.not_mem_nil, or_false] at hf
  rcases hf with hD | hO | hG
  · subst hD
    rw [hfg, hrf]
    rfl
  · subst hO
    have habs : fieldGives
        [("DateTimeOriginal", ExifVal.str (y ++ ":" ++ mo ++ ":" ++ dd ++ " " ++ hh ++ ":" ++ mi ++ ":" ++ ss))]
        "DateTime" = none := by
      simp [fieldGives, alookup]
    rw [habs, hfg, hrf]
    rfl
  · subst hG
    have habs1 : fieldGives
        [("DateTimeDigitized", ExifVal.str (y ++ ":" ++ mo ++ ":" ++ dd ++ " " ++ hh ++ ":" ++ mi ++ ":" ++ ss))]
        "DateTime" = none := by
      simp [fieldGives, alookup]
    have habs2 : fieldGives
        [("DateTimeDigitized", ExifVal.str (y ++ ":" ++ mo ++ ":" ++ dd ++ " " ++ hh ++ ":" ++ mi ++ ":" ++ ss))]
        "DateTimeOriginal" = none := by
      simp [fieldGives, alookup]
    rw [habs1, habs2, hfg, hrf]
    rfl

/-- C5 witness: the tag value "2023:12:25 14:30:45" yields the time
"2023-12-25 14:30". -/
theorem c5_valid_reformat_witness :
    (extract_practical_info [("DateTime", ExifVal.str "2023:12:25 14:30:45")]).time =
      some "2023-12-25 14:30" := by
  have h := c5_valid_reformat "DateTime" (by simp [time_fields])
    "2023" "12" "25" "14" "30" "45" rfl rfl rfl rfl rfl rfl (by decide)
  exact h

/-- C9: normalize is total by construction (a total Lean function into the
two-field record), a map on which none of the three timestamp tags is
present, truthy and valid yields an absent time, and a GPS tag group whose
decode does not fully succeed (an exception, or either coordinate missing)
yields an absent location. -/
theorem c9_never_raises (md : Metadata) :
    ((fieldGives md "DateTime" = none ∧ fieldGives md "DateTimeOriginal" = none ∧
        fieldGives md "DateTimeDigitized" = none) →
      (extract_practical_info md).time = none) ∧
    (∀ g, alookup "GPSInfo" md = some (.gps g) → gpsSuccess g = none →
      (extract_practical_info md).location = none) := by
  constructor
  · rintro ⟨hA, hB, hC⟩
    rw [extract_time_orElse, hA, hB, hC]
    rfl
  · intro g hmd hg
    show extractLocation md = none
    cases hgi : g.isEmpty <;> simp [extractLocation, hmd, hg, truthy, hgi]

/-- C9 witness: a map with no timestamp tag gives an absent time; a GPS
group whose latitude entry is not a degree triple gives an absent
location. -/
theorem c9_never_raises_witness :
    (extract_practical_info [("Foo", ExifVal.str "bar")]).time = none ∧
    (extract_practical_info [("GPSInfo", ExifVal.gps [(2, GpsVal.txt "oops")])]).location
      = none := by
  constructor
  · exact (c9_never_raises [("Foo", ExifVal.str "bar")]).1 ⟨rfl, rfl, rfl⟩
  · exact (c9_never_raises [("GPSInfo", ExifVal.gps [(2, GpsVal.txt "oops")])]).2
      [(2, GpsVal.txt "oops")] rfl rfl

/-- C7: saving into a date whose day document already exists keeps every
previously stored entry at a key other than the new save's time-key
unchanged, stores the new entry under the new time-key (silently
overwriting any same-second entry), and leaves every other date's file
untouched; two saves for the same date at different wall-clock seconds
yield a day document, retrievable via the listing, holding both distinct
entries. -/
theorem c7_save_two_entries (store : Store) (hn : (store.map Prod.fst).Nodup)
    (d : String) (doc : DayDoc) (hd : alookup d store = some (.good doc))
    (hms1 iso1 c1 s1 : String) (n1 : Nat) :
    (∃ store1 doc1, save_diary store hms1 iso1 c1 d s1 n1 = .ok store1 ∧
      alookup d store1 = some (.good doc1) ∧
      alookup hms1 doc1 =
        some { content := c1, style := s1, image_count := n1, created_at := iso1 } ∧
      (∀ k, k ≠ hms1 → alookup k doc1 = alookup k doc) ∧
      (∀ d', d' ≠ d → alookup d' store1 = alookup d' store)) ∧
    (∀ hms2 iso2 c2 s2 : String, ∀ n2 : Nat, hms2 ≠ hms1 →
      ∃ store1 store2 doc2,
        save_diary store hms1 iso1 c1 d s1 n1 = .ok store1 ∧
        save_diary store1 hms2 iso2 c2 d s2 n2 = .ok store2 ∧
        alookup d (load_saved_diaries store2).1 = some doc2 ∧
        alookup hms1 doc2 =
          some { content := c1, style := s1, image_count := n1, created_at := iso1 } ∧
        alookup hms2 doc2 =
          some { content := c2, style := s2, image_count := n2, created_at := iso2 }) := by
  set e1 : DiaryEntry :=
    { content := c1, style := s1, image_count := n1, created_at := iso1 } with he1
  constructor
  · refine ⟨assocSet store d (.good (assocSet doc hms1 e1)), assocSet doc hms1 e1,
      save_diary_existing store d doc hd hms1 iso1 c1 s1 n1, ?_, ?_, ?_, ?_⟩
    · exact alookup_assocSet_self store d _
    · exact alookup_assocSet_self doc hms1 e1
    · intro k hk
      exact alookup_assocSet_other doc hms1 k e1 hk
    · intro d' hd'
      exact alookup_assocSet_other store d d' _ hd'
  · intro hms2 iso2 c2 s2 n2 hne
    set e2 : DiaryEntry :=
      { content := c2, style := s2, image_count := n2, created_at := iso2 } with he2
    set doc1 : DayDoc := assocSet doc hms1 e1 with hdoc1
    set store1 : Store := assocSet store d (.good doc1) with hstore1
    set doc2 : DayDoc := assocSet doc1 hms2 e2 with hdoc2
    set store2 : Store := assocSet store1 d (.good doc2) with hstore2
    have hsave1 : save_diary store hms1 iso1 c1 d s1 n1 = .ok store1 :=
      save_diary_existing store d doc hd hms1 iso1 c1 s1 n1
    have hd1 : alookup d store1 = some (.good doc1) :=
      alookup_assocSet_self store d _
    have hsave2 : save_diary store1 hms2 iso2 c2 d s2 n2 = .ok store2 :=
      save_diary_existing store1 d doc1 hd1 hms2 iso2 c2 s2 n2
    have hn1 : (store1.map Prod.fst).Nodup := assocSet_nodupkeys store d _ hn
    have hn2 : (store2.map Prod.fst).Nodup := assocSet_nodupkeys store1 d _ hn1
    have hd2 : alookup d store2 = some (.good doc2) :=
      alookup_assocSet_self store1 d _
    refine ⟨store1, store2, doc2, hsave1, hsave2, ?_, ?_, ?_⟩
    · rw [load_lookup store2 hn2 d, hd2]
    · rw [alookup_assocSet_other doc1 hms2 hms1 e2 (Ne.symm hne)]
      exact alookup_assocSet_self doc hms1 e1
    · exact alookup_assocSet_self doc1 hms2 e2

/-- The pre-existing entry of the C7 witness store. -/
def entI : DiaryEntry :=
  { content := "아침 일기", style := "자연스러운", image_count := 1,
    created_at := "2024-05-01T09:00:00" }

/-- A one-file store holding one day document with one entry. -/
def storeI : Store := [("2024-05-01", FileVal.good [("09:00:00", entI)])]

/-- C7 witness: two saves for 2024-05-01 at 10:00:00 and 10:00:01 on the
concrete store produce a listed day document holding both entries. -/
theorem c7_save_two_entries_witness :
    ∃ store1 store2 doc2,
      save_diary storeI "10:00:00" "2024-05-01T10:00:00" "점심 일기" "2024-05-01"
          "간결한" 2 = .ok store1 ∧
      save_diary store1 "10:00:01" "2024-05-01T10:00:01" "저녁 일기" "2024-05-01"
          "상세한" 3 = .ok store2 ∧
      alookup "2024-05-01" (load_saved_diaries store2).1 = some doc2 ∧
      alookup "10:00:00" doc2 =
        some { content := "점심 일기", style := "간결한", image_count := 2,
               created_at := "2024-05-01T10:00:00" } ∧
      alookup "10:00:01" doc2 =
        some { content := "저녁 일기", style := "상세한", image_count := 3,
               created_at := "2024-05-01T10:00:01" } :=
  (c7_save_two_entries storeI (by simp [storeI]) "2024-05-01" [("09:00:00", entI)]
      rfl "10:00:00" "2024-05-01T10:00:00" "점심 일기" "간결한" 2).2
    "10:00:01" "2024-05-01T10:00:01" "저녁 일기" "상세한" 3 (by decide)

/-- C8: over any storage directory (with its one-file-per-date key
uniqueness), the listing returns exactly the day documents of the files
that parse: a date is listed with document `doc` precisely when its file
parses to `doc`, and each corrupt file contributes exactly one diagnostic
(and is merely skipped, never aborting the scan). -/
theorem c8_skip_corrupt (store : Store) (hn : (store.map Prod.fst).Nodup) :
    (∀ d doc, alookup d (load_saved_diaries store).1 = some doc ↔
        alookup d store = some (.good doc)) ∧
    (load_saved_diaries store).2.Perm (store.filterMap diagOf) := by
  constructor
  · intro d doc
    rw [load_lookup store hn d]
    cases h : alookup d store with
    | none => simp
    | some v => cases v <;> simp
  · exact load_diags store

/-- The C8 witness store: one valid file and one corrupt file. -/
def storeMix : Store :=
  [("2024-01-01", FileVal.good [("09:00:00", entI)]),
   ("2024-01-02", FileVal.bad "Expecting value")]

/-- C8 witness: on the mixed store the listing returns exactly the valid
file's document, and the diagnostics are exactly the corrupt file's one
message. -/
theorem c8_skip_corrupt_witness :
    alookup "2024-01-01" (load_saved_diaries storeMix).1 =
      some [("09:00:00", entI)] ∧
    (load_saved_diaries storeMix).2.Perm
      ["일기 파일 읽기 오류 (2024-01-02.json): Expecting value"] := by
  constructor
  · exact ((c8_skip_corrupt storeMix (by simp [storeMix])).1 "2024-01-01"
      [("09:00:00", entI)]).mpr rfl
  · have h := (c8_skip_corrupt storeMix (by simp [storeMix])).2
    have heq : storeMix.filterMap diagOf =
        ["일기 파일 읽기 오류 (2024-01-02.json): Expecting value"] := rfl
    rwa [heq] at h

end SnapLog
